import Mathlib

/-!
# multiwatcher: configuration parsing, filename filter and stage runner

A shallow embedding of `parse.go` and `main.go`.

* Values decoded from the configuration document (`interface{}` in the source) are
  the inductive `Value`.  A Go map is an association list whose order is the order in
  which `range` happens to visit the entries in the execution under consideration, so a
  statement quantified over all lists covers every iteration order.
* The regular-expression library (`regexp.Compile`, `(*Regexp).MatchString`) is outside
  the repository; the embedding takes both functions as arguments.
* A Go function that can end in a run-time panic returns an `Outcome`.
-/

namespace Multiwatcher

/-! ## Values decoded from the configuration -/

/-- A decoded configuration value (`interface{}`): `null`, a string, a boolean, an
integer, a list (`[]interface{}`) or a mapping (`map[interface{}]interface{}`). -/
inductive Value where
  | null
  | str (s : String)
  | bool (b : Bool)
  | int (n : Int)
  | slice (xs : List Value)
  | map (kvs : List (Value × Value))

/-- The comparison `v == nil` on an `interface{}`. -/
def Value.isNil : Value → Bool
  | .null => true
  | _ => false

/-- The checked assertion `v.(bool)`: the value and whether the assertion held. -/
def Value.assertBool : Value → Bool × Bool
  | .bool b => (b, true)
  | _ => (false, false)

/-- Whether a map key equals the string `key`. -/
def Value.isKey (key : String) : Value → Bool
  | .str s => s == key
  | _ => false

/-- The index expression `m[key]` for a string key: the stored value, or the nil
interface when the key is absent. -/
def mapIndex (m : List (Value × Value)) (key : String) : Value :=
  match m.find? (fun kv => kv.1.isKey key) with
  | some kv => kv.2
  | none => .null

/-- The first entry, in iteration order, whose value is nil: the entry at which the
loops `for k, v := range m { if v == nil { ...; break } }` stop. -/
def firstNil (m : List (Value × Value)) : Option (Value × Value) :=
  m.find? (fun kv => kv.2.isNil)

/-- Result of a Go call that either returns or panics. -/
inductive Outcome (α : Type) where
  | returns (a : α)
  | panics
  deriving DecidableEq

/-! ## `parse.go` -/

/-- Go `type Dependency struct`. -/
structure Dependency where
  Stage : String
  Async : Bool
  deriving DecidableEq

/-- Go `type FilePattern struct`; `Pattern` is a pointer and may be nil. -/
structure FilePattern (R : Type) where
  Pattern : Option R
  Exclude : Bool
  deriving DecidableEq

/-- Go `type Stage struct`. -/
structure Stage (R : Type) where
  Dependencies : List Dependency
  Files : List (FilePattern R)
  Dir : String
  Recursive : Bool
  Cmd : List String
  EarlyTerminate : Bool
  Start : Bool

/-- Membership test `_, ok := stages[name]` on the stage map. -/
def hasStage {R : Type} (stages : List (String × Stage R)) (name : String) : Bool :=
  (stages.lookup name).isSome

/-- Go `parseDependency`: the dependency and the `ok` flag. -/
def parseDependency (dep : Value) : Dependency × Bool :=
  match dep with
  | .str _dep => ({ Stage := _dep, Async := false }, true)
  | .map _dep =>
    let found : String × Bool :=
      match firstNil _dep with
      | some (.str k, _) => (k, true)
      | some (_, _) => ("", false)
      | none => ("", false)
    if found.1 == "" then
      ({ Stage := found.1, Async := false }, false)
    else
      let a := (mapIndex _dep "async").assertBool
      ({ Stage := found.1, Async := a.1 && a.2 }, found.2)
  | _ => ({ Stage := "", Async := false }, false)

/-- The loop of `parseDependencies` over the items, threading the two named results. -/
def parseDependenciesLoop {R : Type} (stages : List (String × Stage R)) :
    List Value → List Dependency → Bool → List Dependency × Bool
  | [], dependencies, ok => (dependencies, ok)
  | dependency :: rest, dependencies, ok =>
    let r := parseDependency dependency
    if r.2 then
      if !(hasStage stages r.1.Stage) then
        parseDependenciesLoop stages rest dependencies ok
      else
        parseDependenciesLoop stages rest (dependencies ++ [r.1]) ok
    else
      parseDependenciesLoop stages rest dependencies false

/-- Go `parseDependencies`; `depends` is the value of `viper.Get(stage + ".depends")`. -/
def parseDependencies {R : Type} (stages : List (String × Stage R)) (depends : Value) :
    List Dependency × Bool :=
  match depends with
  | .slice items => parseDependenciesLoop stages items [] true
  | _ => ([], false)

/-- The error built by `fmt.Errorf` in `parseFilePattern`. -/
def compileError (patternErr : String) : String :=
  "could not compile file pattern regex:\n\t" ++ patternErr

/-- Compile the key `k` of a mapping item: `regexp.Compile(k.(string))`, where the
unchecked assertion panics on a key that is not a string. On success the pattern is
stored and `Exclude` is set to `exclude`; on a compile error the zero `FilePattern` is
returned with the error. -/
def compileKey {R : Type} (Compile : String → Except String R) (k : Value) (exclude : Bool) :
    Outcome (FilePattern R × Option String) :=
  match k with
  | .str ks =>
    match Compile ks with
    | .error patternErr => .returns ({ Pattern := none, Exclude := false }, some (compileError patternErr))
    | .ok pattern => .returns ({ Pattern := some pattern, Exclude := exclude }, none)
  | _ => .panics

/-- Go `parseFilePattern`: the pattern and the error (nil = `none`). -/
def parseFilePattern {R : Type} (Compile : String → Except String R) (filePattern : Value) :
    Outcome (FilePattern R × Option String) :=
  match filePattern with
  | .str _fp =>
    match Compile _fp with
    | .error patternErr => .returns ({ Pattern := none, Exclude := false }, some (compileError patternErr))
    | .ok pattern => .returns ({ Pattern := some pattern, Exclude := false }, none)
  | .map _fp =>
    match _fp with
    | [(k, v)] =>
      let e := v.assertBool
      compileKey Compile k (e.1 && e.2)
    | _ =>
      let e := (mapIndex _fp "exclude").assertBool
      match firstNil _fp with
      | some (k, _) => compileKey Compile k (e.1 && e.2)
      | none => .returns ({ Pattern := none, Exclude := e.1 && e.2 }, none)
  | _ => .returns ({ Pattern := none, Exclude := false }, none)

/-- The loop of `parseFiles` over the items, threading the two named results. -/
def parseFilesLoop {R : Type} (Compile : String → Except String R) :
    List Value → List (FilePattern R) → Bool → Outcome (List (FilePattern R) × Bool)
  | [], files, ok => .returns (files, ok)
  | filePattern :: rest, files, ok =>
    match parseFilePattern Compile filePattern with
    | .panics => .panics
    | .returns (fp, none) => parseFilesLoop Compile rest (files ++ [fp]) ok
    | .returns (_, some _) => parseFilesLoop Compile rest files false

/-- Go `parseFiles`; `_files` is the value of `viper.Get(stage + ".files")`. -/
def parseFiles {R : Type} (Compile : String → Except String R) (_files : Value) :
    Outcome (List (FilePattern R) × Bool) :=
  match _files with
  | .slice items => parseFilesLoop Compile items [] true
  | _ => .returns ([], false)

/-- The `files` default installed by `setDefaults`. The map literal has two entries;
`swapped` selects the order in which `range` visits them. -/
def setDefaultsFiles (swapped : Bool) : Value :=
  .slice [.str ".*",
    .map (if swapped then [(.str "exclude", .bool true), (.str "^\\..*", .null)]
          else [(.str "^\\..*", .null), (.str "exclude", .bool true)])]

/-! ## `MultiRegexFilterHook` -/

/-- The part of `os.FileInfo` that is data: base name, size and directory flag. -/
structure FileInfo where
  Name : String
  Size : Nat
  IsDir : Bool

/-- The error values a filter hook returns besides nil. -/
inductive WatcherError where
  | ErrSkip
  deriving DecidableEq

/-- The loop `for i := len(files) - 1; i >= 0; i--` of the hook, over the patterns in
the order the loop visits them (last to first). Calling `MatchString` on a nil
`Pattern` dereferences a nil pointer. -/
def filterScan {R : Type} (MatchString : R → String → Bool) (name : String) :
    List (FilePattern R) → Outcome (Option WatcherError)
  | [] => .returns (some .ErrSkip)
  | f :: rest =>
    match f.Pattern with
    | none => .panics
    | some p =>
      if MatchString p name then
        if f.Exclude then .returns (some .ErrSkip) else .returns none
      else filterScan MatchString name rest

/-- Go `MultiRegexFilterHook(files)` applied to `(info, fullPath)`. -/
def MultiRegexFilterHook {R : Type} (MatchString : R → String → Bool)
    (files : List (FilePattern R)) (info : FileInfo) (_fullPath : String) :
    Outcome (Option WatcherError) :=
  filterScan MatchString info.Name files.reverse

/-- Whether a pattern is set and matches the name. -/
def FilePattern.matchesName {R : Type} (MatchString : R → String → Bool)
    (fp : FilePattern R) (name : String) : Bool :=
  match fp.Pattern with
  | some p => MatchString p name
  | none => false

/-! ## A small regular-expression implementation

`regexp` is a library outside the repository, and every definition above takes its two
functions as arguments. The implementation below covers the fragment built from
literal characters, `.`, `*`, a leading `^` and backslash escapes of punctuation; it is
used to instantiate the library at concrete inputs. -/

/-- A single-character matcher: `.` (any character but newline) or a literal. -/
inductive Atom where
  | any
  | lit (c : Char)
  deriving DecidableEq

/-- An atom, possibly under `*`. -/
structure Piece where
  atom : Atom
  star : Bool
  deriving DecidableEq

/-- A compiled expression of the fragment. -/
structure MiniRegexp where
  anchored : Bool
  pieces : List Piece
  deriving DecidableEq

/-- Characters that are operators outside the fragment. -/
def unsupportedOperators : List Char :=
  ['(', ')', '[', ']', '{', '}', '+', '?', '|', '$', '^']

/-- Parse the body of an expression; `acc` holds the pieces read so far, last first. -/
def miniPieces : List Char → List Piece → Except String (List Piece)
  | [], acc => .ok acc.reverse
  | c :: rest, acc =>
    if c = '\\' then
      match rest with
      | [] => .error "trailing backslash at end of expression"
      | d :: rest' =>
        if d.isAlphanum then .error "unsupported escape sequence"
        else miniPieces rest' ({ atom := .lit d, star := false } :: acc)
    else if c = '*' then
      match acc with
      | [] => .error "missing argument to repetition operator"
      | p :: acc' =>
        if p.star then .error "invalid nested repetition operator"
        else miniPieces rest ({ atom := p.atom, star := true } :: acc')
    else if c = '.' then miniPieces rest ({ atom := .any, star := false } :: acc)
    else if c ∈ unsupportedOperators then .error "unsupported operator"
    else miniPieces rest ({ atom := .lit c, star := false } :: acc)

/-- Compile an expression of the fragment. -/
def miniCompile (s : String) : Except String MiniRegexp :=
  match s.data with
  | '^' :: rest =>
    match miniPieces rest [] with
    | .ok ps => .ok { anchored := true, pieces := ps }
    | .error e => .error e
  | cs =>
    match miniPieces cs [] with
    | .ok ps => .ok { anchored := false, pieces := ps }
    | .error e => .error e

/-- Whether an atom matches a character. -/
def Atom.accepts : Atom → Char → Bool
  | .any, c => c != '\n'
  | .lit d, c => c == d

/-- Match `a*` followed by the continuation `k`. -/
def starLoop (k : List Char → Bool) (a : Atom) : List Char → Bool
  | [] => k []
  | c :: s => k (c :: s) || (a.accepts c && starLoop k a s)

/-- Whether the pieces match a prefix of the text. -/
def matchHere : List Piece → List Char → Bool
  | [], _ => true
  | p :: ps, s =>
    if p.star then starLoop (matchHere ps) p.atom s
    else
      match s with
      | [] => false
      | c :: s' => p.atom.accepts c && matchHere ps s'

/-- Whether the pieces match starting at some position of the text. -/
def matchAnywhere (ps : List Piece) : List Char → Bool
  | [] => matchHere ps []
  | c :: s => matchHere ps (c :: s) || matchAnywhere ps s

/-- Whether the text contains a match of the expression. -/
def miniMatchString (re : MiniRegexp) (s : String) : Bool :=
  if re.anchored then matchHere re.pieces s.data else matchAnywhere re.pieces s.data

/-- Whether a name begins with a dot. -/
def beginsWithDot (b : String) : Bool :=
  match b.data with
  | c :: _ => c == '.'
  | [] => false

/-! ## `main.go`: the stage runner

The runner goroutine of a stage is sequential; its state is the slot `cmd` it shares
with the supervisor goroutines it starts. One step of the model is one call of the
spawn path, one iteration of the `for` loop, a supervisor goroutine beginning to run
(it reads the slot and blocks in `Wait`), or a supervisor goroutine returning from
`Wait` and running to its end. A step that panics ends the program and has no
successor state. Calls that act on processes and channels are recorded, in program
order, in a trace; log calls are not recorded. A send on a channel is a rendezvous:
the trace lists the sends in the order the code performs them. -/

/-- Go `type env struct`. -/
structure env where
  trigger : String
  file : String
  stage : String
  deriving DecidableEq

/-- Go `type watchData struct`: the three channel lists. -/
structure watchData (Ch : Type) where
  asyncParentChans : List Ch
  syncParentChans : List Ch
  childChans : List Ch

/-- The fields of `exec.Cmd` that `initCommand` determines: the argument vector and
the environment. -/
structure Cmd where
  Args : List String
  Env : List String
  deriving DecidableEq

/-- Go `initCommand`; `environ` is the value of `os.Environ()`. Indexing
`stage.Cmd[0]` panics when the command line is empty. -/
def initCommand {R : Type} (environ : List String) (stage : Stage R) (e : env) : Outcome Cmd :=
  match stage.Cmd with
  | [] => .panics
  | name :: args =>
    .returns
      { Args := name :: args
        Env := environ ++ ["MW_TRIGGER=" ++ e.trigger, "MW_FILE=" ++ e.file, "MW_STAGE=" ++ e.stage] }

/-- A `*exec.Cmd` value: `id` identifies the allocation and `started` records
whether `Start` succeeded, that is whether its `Process` field is non-nil. -/
structure Handle where
  id : Nat
  command : Cmd
  started : Bool
  deriving DecidableEq

/-- The calls recorded in the trace. -/
inductive Action (Ch : Type) where
  | kill (id : Nat)
  | wait (id : Nat)
  | start (id : Nat) (ok : Bool)
  | send (c : Ch) (e : env)
  | goSupervisor (id : Nat)
  | exitObserved (id : Nat) (success : Bool)
  | clearSlot
  deriving DecidableEq

/-- Whether an action is a call on a process: `Kill`, `Wait` in the spawn path, `Start`. -/
def Action.isProcessCall {Ch : Type} : Action Ch → Bool
  | .kill _ => true
  | .wait _ => true
  | .start _ _ => true
  | _ => false

/-- A supervisor goroutine that has not finished: the child it was started for, the
`env` it captured, and the command it is blocked on in `Wait`, which is the one it
found in the slot when it evaluated `(*cmd).Wait()`; `none` while the goroutine has
not begun to run. -/
structure Supervisor where
  child : Nat
  e : env
  waitingOn : Option Handle
  deriving DecidableEq

/-- The state of one stage: the slot `cmd`, the children that are started and have
not exited, the commands whose `ProcessState` is set (a `Wait` on them has
returned), the supervisor goroutines that have not finished, the number of commands
built so far, whether the runner goroutine has returned, and the trace. -/
structure Runner (Ch : Type) where
  cmd : Option Handle
  alive : List Nat
  finished : List Nat
  supervisors : List Supervisor
  allocated : Nat
  returned : Bool
  trace : List (Action Ch)
  deriving DecidableEq

/-- The prior-child path of `spawnProcess` (`if *cmd != nil`): kill when
`EarlyTerminate`, `Wait`, clear the slot. `Kill` is called on the `Process` field,
which is nil for a command whose `Start` failed. `Wait` is taken to return once the
child has exited, so the child is no longer alive afterwards. -/
def reapPrior {R Ch : Type} (stage : Stage R) (st : Runner Ch) : Outcome (Runner Ch) :=
  match st.cmd with
  | none => .returns st
  | some h =>
    if stage.EarlyTerminate && !h.started then .panics
    else
      .returns
        { st with
          cmd := none
          alive := st.alive.filter (fun c => c != h.id)
          finished := if h.started then h.id :: st.finished else st.finished
          trace := st.trace ++ (if stage.EarlyTerminate then [.kill h.id] else []) ++ [.wait h.id] }

/-- Go `spawnProcess`; `startOk` is whether `(*cmd).Start()` succeeds. -/
def spawnProcess {R Ch : Type} (environ : List String) (startOk : Bool) (stage : Stage R)
    (wd : watchData Ch) (e : env) (st : Runner Ch) : Outcome (Runner Ch) :=
  match reapPrior stage st with
  | .panics => .panics
  | .returns st1 =>
    match initCommand environ stage e with
    | .panics => .panics
    | .returns c =>
      let h : Handle := { id := st1.allocated, command := c, started := startOk }
      let st2 : Runner Ch :=
        { st1 with
          cmd := some h
          allocated := st1.allocated + 1
          trace := st1.trace ++ [.start h.id startOk] }
      if !startOk then .returns st2
      else
        .returns
          { st2 with
            alive := st2.alive ++ [h.id]
            supervisors := st2.supervisors ++ [{ child := h.id, e := e, waitingOn := none }]
            trace := st2.trace ++ wd.asyncParentChans.map (fun c => .send c e) ++ [.goSupervisor h.id] }

/-- The supervisor goroutine started for `child` begins to run (main.go:172): it
evaluates `(*cmd).Wait()`, reading the slot. On a nil slot the call dereferences a nil
pointer; otherwise the goroutine blocks in `Wait` on the command the slot holds at
that moment, whether or not it is the child the goroutine was started for. -/
def supervisorStart {Ch : Type} (child : Nat) (st : Runner Ch) : Outcome (Runner Ch) :=
  match st.cmd with
  | none => .panics
  | some h =>
    .returns
      { st with
        supervisors := st.supervisors.map (fun s =>
          if s.child = child ∧ s.waitingOn = none then { s with waitingOn := some h } else s) }

/-- The supervisor goroutine `s`, blocked in `Wait` on the command `h`, from the return
of `Wait` to its end (main.go:172-185). `waitOk` says that `Wait` returned a nil
error; on a command that was never started it returns an error. `Wait` is taken to
return once the child has exited, and it sets the `ProcessState` of `h`. With a nil
error the goroutine evaluates `(*cmd).ProcessState.Success()`, reading the slot again:
this dereferences a nil pointer when the slot is nil or holds a command whose
`ProcessState` is not set. Then it clears the slot, whatever it holds, and sends the
captured `env` on the sync channels. -/
def supervisorExit {Ch : Type} (wd : watchData Ch) (s : Supervisor) (h : Handle) (waitOk : Bool)
    (st : Runner Ch) : Outcome (Runner Ch) :=
  let ok := waitOk && h.started
  let finished := h.id :: st.finished
  let stateSet : Bool :=
    match st.cmd with
    | some current => finished.contains current.id
    | none => false
  if ok && !stateSet then .panics
  else
    .returns
      { st with
        cmd := none
        alive := st.alive.filter (fun c => c != h.id)
        finished := finished
        supervisors := st.supervisors.erase s
        trace := st.trace ++ [.exitObserved h.id ok, .clearSlot]
          ++ wd.syncParentChans.map (fun c => .send c s.e) }

/-- What `reflect.Select` delivers to the loop: a closed channel (`!ok`), a watch
error, the watch-closed signal, a watch event, or a value from an upstream channel. -/
inductive Source where
  | selectNotOk
  | watchError
  | watchClosed
  | watchEvent (path : String)
  | upstream (trigger : env)

/-- The state in which the runner goroutine starts. -/
def Runner.init (Ch : Type) : Runner Ch :=
  { cmd := none, alive := [], finished := [], supervisors := [], allocated := 0,
    returned := false, trace := [] }

/-- The runner before its loop: `if stage.Start { spawnProcess(...) }`. -/
def boot {R Ch : Type} (name : String) (environ : List String) (startOk : Bool) (stage : Stage R)
    (wd : watchData Ch) : Outcome (Runner Ch) :=
  if stage.Start then
    spawnProcess environ startOk stage wd { trigger := "", file := "", stage := name } (Runner.init Ch)
  else .returns (Runner.init Ch)

/-- One iteration of the runner loop serving the selected source. -/
def serve {R Ch : Type} (name : String) (environ : List String) (startOk : Bool) (stage : Stage R)
    (wd : watchData Ch) (src : Source) (st : Runner Ch) : Outcome (Runner Ch) :=
  match src with
  | .selectNotOk => .returns { st with returned := true }
  | .watchError => .returns st
  | .watchClosed => .returns { st with returned := true }
  | .watchEvent path =>
    spawnProcess environ startOk stage wd { trigger := "", file := path, stage := name } st
  | .upstream trigger =>
    spawnProcess environ startOk stage wd
      { trigger := trigger.stage, file := trigger.file, stage := name } st

/-- One step of a stage: the runner, not yet returned, serves a source; a supervisor
goroutine that has not begun to run does so; or a supervisor goroutine blocked in
`Wait` returns from it and runs to its end. -/
inductive Step {R Ch : Type} (name : String) (environ : List String) (stage : Stage R)
    (wd : watchData Ch) : Runner Ch → Runner Ch → Prop where
  | served (startOk : Bool) (src : Source) (st st' : Runner Ch) :
      st.returned = false → serve name environ startOk stage wd src st = .returns st' →
      Step name environ stage wd st st'
  | supervisorStarted (s : Supervisor) (st st' : Runner Ch) :
      s ∈ st.supervisors → s.waitingOn = none → supervisorStart s.child st = .returns st' →
      Step name environ stage wd st st'
  | supervisorExited (s : Supervisor) (h : Handle) (waitOk : Bool) (st st' : Runner Ch) :
      s ∈ st.supervisors → s.waitingOn = some h → supervisorExit wd s h waitOk st = .returns st' →
      Step name environ stage wd st st'

/-- The states a stage can reach from its boot. -/
inductive Reachable {R Ch : Type} (name : String) (environ : List String) (stage : Stage R)
    (wd : watchData Ch) : Runner Ch → Prop where
  | booted (startOk : Bool) (st : Runner Ch) :
      boot name environ startOk stage wd = .returns st → Reachable name environ stage wd st
  | step (st st' : Runner Ch) :
      Reachable name environ stage wd st → Step name environ stage wd st st' →
      Reachable name environ stage wd st'

/-- Whether the spawn path gets as far as calling `Start`: the command line is not
empty, and the slot does not hold a command that failed to start while
`EarlyTerminate` is set. -/
def reachesStart {R Ch : Type} (stage : Stage R) (st : Runner Ch) : Bool :=
  !stage.Cmd.isEmpty &&
    (match st.cmd with
     | some h => !(stage.EarlyTerminate && !h.started)
     | none => true)

/-! ## The environment of a child -/

/-- Split an entry `KEY=value` at its first `=`. -/
def splitEntry : List Char → Option (List Char × List Char)
  | [] => none
  | c :: rest =>
    if c = '=' then some ([], rest)
    else
      match splitEntry rest with
      | some (k, v) => some (c :: k, v)
      | none => none

/-- The value of `key` if the entry defines it. -/
def entryValue (key : String) (kv : String) : Option String :=
  match splitEntry kv.data with
  | some (k, v) => if k = key.data then some (String.mk v) else none
  | none => none

/-- Look a variable up in an environment; the last entry for a key wins. -/
def lookupEnv (environ : List String) (key : String) : Option String :=
  (environ.reverse.filterMap (entryValue key)).head?

/-! ## The files rule as the specification words it -/

/-- The pattern the specification assigns to a files item: a string is an include
pattern; in a mapping with exactly one key other than `exclude` that key is the
pattern; otherwise the first key mapping to null is the pattern; the `exclude` entry
of the mapping gives the flag. -/
def specFilePattern {R : Type} (Compile : String → Except String R) : Value → Option (FilePattern R)
  | .str r =>
    match Compile r with
    | .ok p => some { Pattern := some p, Exclude := false }
    | .error _ => none
  | .map m =>
    let e := (mapIndex m "exclude").assertBool
    let key : Option Value :=
      match m.filter (fun kv => !kv.1.isKey "exclude") with
      | [(k, _)] => some k
      | _ => (firstNil m).map (fun kv => kv.1)
    match key with
    | some (.str ks) =>
      match Compile ks with
      | .ok p => some { Pattern := some p, Exclude := e.1 && e.2 }
      | .error _ => none
    | _ => none
  | _ => none

/-! ## Well-formed `depends` items -/

/-- A `depends` item of one of the documented shapes: a string `s`, or a mapping
`{s: null}` or `{s: null, async: b}`; `asyncFirst` tells whether `range` visits the
`async` entry before the entry of `s`. -/
inductive DependsItem where
  | name (s : String)
  | mapping (s : String) (async : Option Bool) (asyncFirst : Bool)

/-- The decoded value of a `depends` item. -/
def DependsItem.toValue : DependsItem → Value
  | .name s => .str s
  | .mapping s none _ => .map [(.str s, .null)]
  | .mapping s (some b) false => .map [(.str s, .null), (.str "async", .bool b)]
  | .mapping s (some b) true => .map [(.str "async", .bool b), (.str s, .null)]

/-- The stage name of a mapping item is not empty, and its two keys are distinct. -/
def DependsItem.wellFormed : DependsItem → Prop
  | .name _ => True
  | .mapping s async _ => s ≠ "" ∧ (async.isSome = true → s ≠ "async")

/-- The dependency an item stands for: sync unless `async: true`. -/
def DependsItem.dependency : DependsItem → Dependency
  | .name s => { Stage := s, Async := false }
  | .mapping s async _ => { Stage := s, Async := async.getD false }

/-! ## Reading the result of `parseFilePattern` -/

/-- The boolean a value holds; false for a value that is not a boolean. -/
def Value.truth : Value → Bool
  | .bool b => b
  | _ => false

/-- The pattern `parseFilePattern` returns without error, if it does. -/
def parsedPattern {R : Type} (Compile : String → Except String R) (item : Value) :
    Option (FilePattern R) :=
  match parseFilePattern Compile item with
  | .returns (fp, none) => some fp
  | _ => none

/-- Whether `parseFilePattern` returns an error for the item. -/
def reportsError {R : Type} (Compile : String → Except String R) (item : Value) : Bool :=
  match parseFilePattern Compile item with
  | .returns (_, some _) => true
  | _ => false

/-! ## Concrete inputs -/

/-- The expression `.*` compiled. -/
def dotStar : MiniRegexp :=
  { anchored := false, pieces := [{ atom := .any, star := true }] }

/-- The expression `^\..*` compiled. -/
def hiddenName : MiniRegexp :=
  { anchored := true, pieces := [{ atom := .lit '.', star := false }, { atom := .any, star := true }] }

/-- The expression `a` compiled. -/
def letterA : MiniRegexp :=
  { anchored := false, pieces := [{ atom := .lit 'a', star := false }] }

/-- A stage with the given command line and `early-terminate` setting, started at boot. -/
def exampleStage (cmd : List String) (earlyTerminate : Bool) : Stage MiniRegexp :=
  { Dependencies := [], Files := [], Dir := ".", Recursive := true, Cmd := cmd,
    EarlyTerminate := earlyTerminate, Start := true }

/-- Channel lists with one async downstream `1` and one sync downstream `2`. -/
def exampleWatchData : watchData Nat :=
  { asyncParentChans := [1], syncParentChans := [2], childChans := [] }

/-- The `env` of the boot spawn of the stage `s`. -/
def bootEnv : env :=
  { trigger := "", file := "", stage := "s" }

/-- The command built by the boot spawn of the stage `s` with command line `cmd` and an
empty parent environment, once started. -/
def bootHandle (cmd : List String) : Handle :=
  { id := 0
    command := { Args := cmd, Env := ["MW_TRIGGER=", "MW_FILE=", "MW_STAGE=s"] }
    started := true }

/-- The supervisor goroutine of the boot spawn, blocked in `Wait` on the child it was
started for. -/
def bootSupervisor (cmd : List String) : Supervisor :=
  { child := 0, e := bootEnv, waitingOn := some (bootHandle cmd) }

/-- Run `g` on the result of a call that returned. -/
def Outcome.andThen {α β : Type} (o : Outcome α) (g : α → Outcome β) : Outcome β :=
  match o with
  | .returns a => g a
  | .panics => .panics

/-- The variables `MW_TRIGGER`, `MW_FILE`, `MW_STAGE` as a child given the environment
`environ` reads them. -/
def childVariables (environ : List String) : Option String × Option String × Option String :=
  (lookupEnv environ "MW_TRIGGER", lookupEnv environ "MW_FILE", lookupEnv environ "MW_STAGE")

/-! # Theorems -/

/-! ## The filename filter -/

theorem filterScan_eq_find {R : Type} (MatchString : R → String → Bool) (name : String) :
    ∀ l : List (FilePattern R), (∀ fp ∈ l, fp.Pattern.isSome = true) →
      filterScan MatchString name l =
        .returns (match l.find? (fun g => g.matchesName MatchString name) with
          | some fp => if fp.Exclude then some .ErrSkip else none
          | none => some .ErrSkip)
  | [], _ => rfl
  | f :: rest, hset => by
    have hrest : ∀ fp ∈ rest, fp.Pattern.isSome = true :=
      fun fp hfp => hset fp (List.mem_cons_of_mem _ hfp)
    have hf := hset f (List.mem_cons_self _ _)
    cases hp : f.Pattern with
    | none => rw [hp] at hf; cases hf
    | some p =>
      by_cases hm : MatchString p name = true
      · have hmn : f.matchesName MatchString name = true := by
          simp [FilePattern.matchesName, hp, hm]
        simp only [List.find?_cons, hmn, filterScan, hp, hm, if_true]
        split <;> rfl
      · have hmn : ¬ (f.matchesName MatchString name = true) := by
          simp [FilePattern.matchesName, hp, hm]
        have hmn' : f.matchesName MatchString name = false := by simpa using hmn
        simp only [List.find?_cons, hmn', filterScan, hp, hm]
        exact filterScan_eq_find MatchString name rest hrest

theorem find_reverse_eq_some {α : Type} (p : α → Bool) (files : List α) (a : α) :
    files.reverse.find? p = some a ↔
      ∃ before after, files = before ++ a :: after ∧ p a = true ∧ ∀ g ∈ after, p g = false := by
  rw [List.find?_eq_some]
  constructor
  · rintro ⟨hpa, as, bs, hl, has⟩
    refine ⟨bs.reverse, as.reverse, ?_, hpa, ?_⟩
    · have := congrArg List.reverse hl
      simpa using this
    · intro g hg
      have := has g (List.mem_reverse.mp hg)
      simpa using this
  · rintro ⟨before, after, hl, hpa, hafter⟩
    refine ⟨hpa, after.reverse, before.reverse, ?_, ?_⟩
    · simp [hl]
    · intro g hg
      have := hafter g (List.mem_reverse.mp hg)
      simp [this]

/-- C1 (amended): for every list of file patterns whose `Pattern` is set and every file,
the hook returns nil exactly when some pattern matches the base name and the last such
pattern has `Exclude = false`; it returns `ErrSkip` exactly when the last matching
pattern has `Exclude = true` or no pattern matches; it always returns one of the two;
and the result depends only on the base name. -/
theorem MultiRegexFilterHook_last_match_wins {R : Type} (MatchString : R → String → Bool)
    (files : List (FilePattern R)) (info : FileInfo) (fullPath : String)
    (hset : ∀ fp ∈ files, fp.Pattern.isSome = true) :
    (MultiRegexFilterHook MatchString files info fullPath = .returns none ↔
      ∃ before fp after, files = before ++ fp :: after ∧
        fp.matchesName MatchString info.Name = true ∧
        (∀ g ∈ after, g.matchesName MatchString info.Name = false) ∧ fp.Exclude = false) ∧
    (MultiRegexFilterHook MatchString files info fullPath = .returns (some .ErrSkip) ↔
      (∃ before fp after, files = before ++ fp :: after ∧
        fp.matchesName MatchString info.Name = true ∧
        (∀ g ∈ after, g.matchesName MatchString info.Name = false) ∧ fp.Exclude = true) ∨
      (∀ g ∈ files, g.matchesName MatchString info.Name = false)) ∧
    (∀ (info' : FileInfo) (fullPath' : String), info'.Name = info.Name →
      MultiRegexFilterHook MatchString files info' fullPath' =
        MultiRegexFilterHook MatchString files info fullPath) := by
  have hrev : ∀ fp ∈ files.reverse, fp.Pattern.isSome = true :=
    fun fp hfp => hset fp (List.mem_reverse.mp hfp)
  have hscan := filterScan_eq_find MatchString info.Name files.reverse hrev
  refine ⟨?_, ?_, ?_⟩
  · unfold MultiRegexFilterHook
    rw [hscan]
    constructor
    · intro h
      cases hfind : files.reverse.find? (fun g => g.matchesName MatchString info.Name) with
      | none => rw [hfind] at h; simp at h
      | some fp =>
        rw [hfind] at h
        obtain ⟨before, after, hl, hm, hafter⟩ := (find_reverse_eq_some _ files fp).mp hfind
        refine ⟨before, fp, after, hl, hm, hafter, ?_⟩
        cases he : fp.Exclude with
        | false => rfl
        | true => simp [he] at h
    · rintro ⟨before, fp, after, hl, hm, hafter, he⟩
      have hfind := (find_reverse_eq_some (fun g => g.matchesName MatchString info.Name)
        files fp).mpr ⟨before, after, hl, hm, hafter⟩
      rw [hfind]
      simp [he]
  · unfold MultiRegexFilterHook
    rw [hscan]
    constructor
    · intro h
      cases hfind : files.reverse.find? (fun g => g.matchesName MatchString info.Name) with
      | none =>
        right
        intro g hg
        have := (List.find?_eq_none.mp hfind) g (List.mem_reverse.mpr hg)
        simpa using this
      | some fp =>
        left
        rw [hfind] at h
        obtain ⟨before, after, hl, hm, hafter⟩ := (find_reverse_eq_some _ files fp).mp hfind
        refine ⟨before, fp, after, hl, hm, hafter, ?_⟩
        cases he : fp.Exclude with
        | true => rfl
        | false => simp [he] at h
    · rintro (⟨before, fp, after, hl, hm, hafter, he⟩ | hnone)
      · have hfind := (find_reverse_eq_some (fun g => g.matchesName MatchString info.Name)
          files fp).mpr ⟨before, after, hl, hm, hafter⟩
        rw [hfind]
        simp [he]
      · have hfind : files.reverse.find? (fun g => g.matchesName MatchString info.Name) = none := by
          rw [List.find?_eq_none]
          intro g hg
          simp [hnone g (List.mem_reverse.mp hg)]
        rw [hfind]
  · intro info' fullPath' hname
    unfold MultiRegexFilterHook
    rw [hname]

/-! ## Dependencies -/

theorem parseDependency_toValue (it : DependsItem) (hwf : it.wellFormed) :
    parseDependency it.toValue = (it.dependency, true) := by
  cases it with
  | name s => rfl
  | mapping s async asyncFirst =>
    obtain ⟨hne, hasync⟩ := hwf
    have hne' : (s == "") = false := by simpa using hne
    cases async with
    | none =>
      by_cases hk : s = "async" <;> cases asyncFirst <;>
        simp [DependsItem.toValue, DependsItem.dependency, parseDependency, firstNil, Value.isNil,
          hne', mapIndex, Value.isKey, Value.assertBool, hk]
    | some b =>
      have hk : (s == "async") = false := by simpa using hasync rfl
      cases asyncFirst <;>
        simp [DependsItem.toValue, DependsItem.dependency, parseDependency, firstNil, Value.isNil,
          hne', mapIndex, Value.isKey, Value.assertBool, hk]

theorem parseDependenciesLoop_toValue {R : Type} (stages : List (String × Stage R)) :
    ∀ (items : List DependsItem) (acc : List Dependency) (ok : Bool),
      (∀ it ∈ items, it.wellFormed) →
      parseDependenciesLoop stages (items.map DependsItem.toValue) acc ok =
        (acc ++ (items.map DependsItem.dependency).filter (fun d => hasStage stages d.Stage), ok)
  | [], acc, ok, _ => by simp [parseDependenciesLoop]
  | it :: rest, acc, ok, hwf => by
    have hit := parseDependency_toValue it (hwf it (List.mem_cons_self _ _))
    have hrest : ∀ x ∈ rest, x.wellFormed := fun x hx => hwf x (List.mem_cons_of_mem _ hx)
    simp only [List.map_cons, parseDependenciesLoop, hit, if_true]
    cases hs : hasStage stages it.dependency.Stage with
    | false =>
      simp only [Bool.not_false, if_true, List.filter_cons, hs]
      exact parseDependenciesLoop_toValue stages rest acc ok hrest
    | true =>
      simp only [Bool.not_true, List.filter_cons, hs, if_true]
      rw [parseDependenciesLoop_toValue stages rest (acc ++ [it.dependency]) ok hrest]
      simp

/-- C7: for every stage map and every `depends` list whose items are strings or
mappings `{s: null}` / `{s: null, async: b}` with `s` non-empty, `parseDependencies`
returns `ok = true` and, in item order, the dependencies of the items (sync for a
string or a mapping without `async`, `async = b` otherwise) restricted to the items
naming a stage of the map; so every returned dependency names an existing stage and
an item naming an unknown stage is dropped without failing. -/
theorem parseDependencies_wellFormed {R : Type} (stages : List (String × Stage R))
    (items : List DependsItem) (hwf : ∀ it ∈ items, it.wellFormed) :
    parseDependencies stages (.slice (items.map DependsItem.toValue)) =
        ((items.map DependsItem.dependency).filter (fun d => hasStage stages d.Stage), true) ∧
      (∀ d ∈ (parseDependencies stages (.slice (items.map DependsItem.toValue))).1,
        hasStage stages d.Stage = true) := by
  have h : parseDependencies stages (.slice (items.map DependsItem.toValue)) =
      ((items.map DependsItem.dependency).filter (fun d => hasStage stages d.Stage), true) := by
    simp only [parseDependencies]
    rw [parseDependenciesLoop_toValue stages items [] true hwf]
    simp
  refine ⟨h, ?_⟩
  rw [h]
  intro d hd
  exact (List.mem_filter.mp hd).2

/-- Witness of C7: stages `build` and `test`; the items `build`, `{test: null, async: true}`
(visited `async` first) and `{deploy: null}`, the last naming no stage. -/
theorem parseDependencies_wellFormed_witness :
    (∀ it ∈ [DependsItem.name "build", .mapping "test" (some true) true, .mapping "deploy" none false],
        it.wellFormed) ∧
      parseDependencies [("build", exampleStage [] true), ("test", exampleStage [] true)]
          (.slice [.str "build", .map [(.str "async", .bool true), (.str "test", .null)],
            .map [(.str "deploy", .null)]]) =
        ([{ Stage := "build", Async := false }, { Stage := "test", Async := true }], true) :=
  ⟨by simp [DependsItem.wellFormed],
   (parseDependencies_wellFormed [("build", exampleStage [] true), ("test", exampleStage [] true)]
      [DependsItem.name "build", .mapping "test" (some true) true, .mapping "deploy" none false]
      (by simp [DependsItem.wellFormed])).1⟩

/-! ## File patterns -/

theorem assertBool_and (v : Value) : (v.assertBool.1 && v.assertBool.2) = v.truth := by
  cases v <;> simp [Value.assertBool, Value.truth]

/-- C8 (amended): a string `r` yields the include pattern compiled from `r`; a mapping
with exactly one entry, of string key `k`, yields the pattern compiled from `k` with
`Exclude` equal to the boolean `k` maps to (false when that value is not a boolean);
any other mapping whose first null-valued key is a string `k` yields the pattern
compiled from `k` with `Exclude` equal to the boolean under `exclude` (false when
absent). In each case, when the regex compiles, no error is returned and `Pattern` is
set. -/
theorem parseFilePattern_shapes {R : Type} (Compile : String → Except String R) :
    (∀ (r : String) (p : R), Compile r = .ok p →
      parseFilePattern Compile (.str r) = .returns ({ Pattern := some p, Exclude := false }, none)) ∧
    (∀ (k : String) (v : Value) (p : R), Compile k = .ok p →
      parseFilePattern Compile (.map [(.str k, v)]) =
        .returns ({ Pattern := some p, Exclude := v.truth }, none)) ∧
    (∀ (m : List (Value × Value)) (k : String) (v : Value) (p : R), m.length ≠ 1 →
      firstNil m = some (.str k, v) → Compile k = .ok p →
      parseFilePattern Compile (.map m) =
        .returns ({ Pattern := some p, Exclude := (mapIndex m "exclude").truth }, none)) := by
  refine ⟨?_, ?_, ?_⟩
  · intro r p hc
    simp [parseFilePattern, hc]
  · intro k v p hc
    simp [parseFilePattern, compileKey, hc, assertBool_and]
  · intro m k v p hlen hnil hc
    match m, hlen, hnil with
    | [], _, hnil => simp [firstNil] at hnil
    | [_], hlen, _ => simp at hlen
    | a :: b :: rest, _, hnil =>
      simp [parseFilePattern, hnil, compileKey, hc, assertBool_and]

/-- Witness of C8 (amended): the mapping `{"^\\..*": null, "exclude": true}` of the
default configuration. -/
theorem parseFilePattern_shapes_witness :
    parseFilePattern miniCompile (.map [(.str "^\\..*", .null), (.str "exclude", .bool true)]) =
      .returns ({ Pattern := some hiddenName, Exclude := true }, none) :=
  (parseFilePattern_shapes miniCompile).2.2
    [(.str "^\\..*", .null), (.str "exclude", .bool true)] "^\\..*" .null hiddenName
    (by decide) rfl rfl

/-- C8 as stated fails: `{"a": true}` has exactly one key other than `exclude` and no
`exclude` key, so the stated rule gives the pattern `a` with `Exclude = false`, while
`parseFilePattern` returns it with `Exclude = true`; and `{"a": 5, "exclude": true}` has
exactly one key other than `exclude`, so the stated rule gives the pattern `a`, while
`parseFilePattern` returns no error and no pattern. -/
theorem parseFilePattern_differs_from_stated_rule :
    specFilePattern miniCompile (.map [(.str "a", .bool true)]) =
        some { Pattern := some letterA, Exclude := false } ∧
      parseFilePattern miniCompile (.map [(.str "a", .bool true)]) =
        .returns ({ Pattern := some letterA, Exclude := true }, none) ∧
      specFilePattern miniCompile (.map [(.str "a", .int 5), (.str "exclude", .bool true)]) =
        some { Pattern := some letterA, Exclude := true } ∧
      parseFilePattern miniCompile (.map [(.str "a", .int 5), (.str "exclude", .bool true)]) =
        .returns ({ Pattern := none, Exclude := true }, none) := by
  decide

theorem parseFilesLoop_eq {R : Type} (Compile : String → Except String R) :
    ∀ (items : List Value) (files : List (FilePattern R)) (ok : Bool),
      (∀ it ∈ items, parseFilePattern Compile it ≠ .panics) →
      parseFilesLoop Compile items files ok =
        .returns (files ++ items.filterMap (parsedPattern Compile),
          ok && items.all (fun it => !reportsError Compile it))
  | [], files, ok, _ => by simp [parseFilesLoop]
  | it :: rest, files, ok, hnp => by
    have hit := hnp it (List.mem_cons_self _ _)
    have hrest : ∀ x ∈ rest, parseFilePattern Compile x ≠ .panics :=
      fun x hx => hnp x (List.mem_cons_of_mem _ hx)
    cases hr : parseFilePattern Compile it with
    | panics => exact absurd hr hit
    | returns r =>
      obtain ⟨fp, err⟩ := r
      cases err with
      | none =>
        simp only [parseFilesLoop, hr]
        rw [parseFilesLoop_eq Compile rest (files ++ [fp]) ok hrest]
        simp [List.filterMap_cons, parsedPattern, reportsError, hr]
      | some e =>
        simp only [parseFilesLoop, hr]
        rw [parseFilesLoop_eq Compile rest files false hrest]
        simp [List.filterMap_cons, parsedPattern, reportsError, hr]

theorem reportsError_of_compile_error {R : Type} (Compile : String → Except String R)
    (r e : String) (h : Compile r = .error e) :
    reportsError Compile (.str r) = true ∧ parsedPattern Compile (.str r) = none := by
  simp [reportsError, parsedPattern, parseFilePattern, h]

/-- Where `parseFilePattern` returns for every item of a files list, `parseFiles`
returns exactly the patterns `parseFilePattern` returns without error, in the order of
their items, and `ok` tells whether no item had an error; an item with an error is
dropped and makes `ok = false`, while the items before and after it are still parsed
and returned. -/
theorem parseFiles_drops_only_failures {R : Type} (Compile : String → Except String R)
    (items : List Value) (hnp : ∀ it ∈ items, parseFilePattern Compile it ≠ .panics) :
    parseFiles Compile (.slice items) =
        .returns (items.filterMap (parsedPattern Compile),
          items.all (fun it => !reportsError Compile it)) ∧
      (∀ (before after : List Value) (bad : Value), items = before ++ bad :: after →
        reportsError Compile bad = true →
        parseFiles Compile (.slice items) =
          .returns (before.filterMap (parsedPattern Compile) ++
            after.filterMap (parsedPattern Compile), false)) := by
  have h : parseFiles Compile (.slice items) =
      .returns (items.filterMap (parsedPattern Compile),
        items.all (fun it => !reportsError Compile it)) := by
    simp only [parseFiles]
    rw [parseFilesLoop_eq Compile items [] true hnp]
    simp
  refine ⟨h, ?_⟩
  intro before after bad hitems hbad
  rw [h, hitems]
  have hdrop : parsedPattern Compile bad = none := by
    unfold reportsError at hbad
    unfold parsedPattern
    split at hbad
    · next heq => rw [heq]
    · cases hbad
  simp [List.filterMap_cons, hdrop, hbad]

/-- The files list `["a", "*", "^\\..*"]`, whose second item does not compile. -/
theorem parseFiles_drops_only_failures_witness :
    (∀ it ∈ [Value.str "a", .str "*", .str "^\\..*"], parseFilePattern miniCompile it ≠ .panics) ∧
      parseFiles miniCompile (.slice [.str "a", .str "*", .str "^\\..*"]) =
        .returns ([{ Pattern := some letterA, Exclude := false },
          { Pattern := some hiddenName, Exclude := false }], false) :=
  ⟨by decide,
   (parseFiles_drops_only_failures miniCompile [.str "a", .str "*", .str "^\\..*"] (by decide)).1⟩

/-- C9 fails on the code: on the files list `["a", {1: null}, "b"]` the unchecked
assertion `k.(string)` of `parseFilePattern` panics, so `parseFiles` returns nothing,
neither the patterns of the first and third item nor `ok = false`; and on the files
list `[5]`, whose item has no regex at all, it returns one `FilePattern` (with no
`Pattern`) and `ok = true` instead of dropping the item. The sibling
`parseDependencies`, whose assertion is checked, drops the item `{1: null}` and
returns `ok = false`. -/
theorem parseFiles_panics_on_non_string_key :
    parseFiles miniCompile (.slice [.str "a", .map [(.int 1, .null)], .str "b"]) = .panics ∧
      parseFiles miniCompile (.slice [.int 5]) =
        .returns ([{ Pattern := none, Exclude := false }], true) ∧
      parseDependencies ([] : List (String × Stage MiniRegexp))
          (.slice [.map [(.int 1, .null)]]) = ([], false) := by
  decide

/-! ## The default files value -/

theorem starLoop_true (a : Atom) (s : List Char) : starLoop (fun _ => true) a s = true := by
  cases s <;> simp [starLoop]

theorem matchHere_nil : matchHere [] = fun _ => true := by
  funext s
  simp [matchHere]

theorem dotStar_matches_all (b : String) : miniMatchString dotStar b = true := by
  have h : ∀ s : List Char, matchHere dotStar.pieces s = true := by
    intro s
    simp [dotStar, matchHere, matchHere_nil, starLoop_true]
  have h' : ∀ s : List Char, matchAnywhere dotStar.pieces s = true := by
    intro s
    cases s <;> simp [matchAnywhere, h]
  simp [miniMatchString, dotStar, h']
  exact h' b.data

theorem hiddenName_matches_iff (b : String) : miniMatchString hiddenName b = beginsWithDot b := by
  simp only [miniMatchString, hiddenName, beginsWithDot]
  cases b.data with
  | nil => simp [matchHere]
  | cons c s => simp [matchHere, matchHere_nil, starLoop_true, Atom.accepts]

/-- C10: the default `files` value of `setDefaults`, whatever the order in which the
entries of its mapping are visited, is parsed by `parseFiles` without error into the
include pattern `.*` followed by the exclude pattern `^\..*`; with a regexp library in
which `.*` matches every name and `^\..*` matches exactly the names beginning with a
dot, the hook built from them rejects every base name beginning with a dot and accepts
every other one; it rejects `.hidden` and accepts `visible.go`. -/
theorem setDefaults_files_filter {R : Type} (Compile : String → Except String R)
    (MatchString : R → String → Bool) (all hidden : R)
    (hall : Compile ".*" = .ok all) (hhidden : Compile "^\\..*" = .ok hidden)
    (hmall : ∀ b, MatchString all b = true)
    (hmhidden : ∀ b, MatchString hidden b = beginsWithDot b) :
    (∀ swapped, parseFiles Compile (setDefaultsFiles swapped) =
      .returns ([{ Pattern := some all, Exclude := false },
        { Pattern := some hidden, Exclude := true }], true)) ∧
    (∀ (info : FileInfo) (fullPath : String),
      MultiRegexFilterHook MatchString
          [{ Pattern := some all, Exclude := false }, { Pattern := some hidden, Exclude := true }]
          info fullPath =
        .returns (if beginsWithDot info.Name then some .ErrSkip else none)) ∧
    (∀ (size : Nat) (dir : Bool) (fullPath : String),
      MultiRegexFilterHook MatchString
          [{ Pattern := some all, Exclude := false }, { Pattern := some hidden, Exclude := true }]
          { Name := ".hidden", Size := size, IsDir := dir } fullPath = .returns (some .ErrSkip) ∧
      MultiRegexFilterHook MatchString
          [{ Pattern := some all, Exclude := false }, { Pattern := some hidden, Exclude := true }]
          { Name := "visible.go", Size := size, IsDir := dir } fullPath = .returns none) := by
  have hhook : ∀ (info : FileInfo) (fullPath : String),
      MultiRegexFilterHook MatchString
          [{ Pattern := some all, Exclude := false }, { Pattern := some hidden, Exclude := true }]
          info fullPath =
        .returns (if beginsWithDot info.Name then some .ErrSkip else none) := by
    intro info fullPath
    cases hb : beginsWithDot info.Name <;>
      simp [MultiRegexFilterHook, filterScan, hmall, hmhidden, hb]
  refine ⟨?_, hhook, ?_⟩
  · intro swapped
    cases swapped <;>
      simp [setDefaultsFiles, parseFiles, parseFilesLoop, parseFilePattern, compileKey, firstNil,
        mapIndex, Value.isNil, Value.isKey, Value.assertBool, hall, hhidden]
  · intro size dir fullPath
    constructor
    · rw [hhook]; rfl
    · rw [hhook]; rfl

/-- Witness of C10: the library of the small implementation. -/
theorem setDefaults_files_filter_witness :
    parseFiles miniCompile (setDefaultsFiles true) =
        .returns ([{ Pattern := some dotStar, Exclude := false },
          { Pattern := some hiddenName, Exclude := true }], true) ∧
      MultiRegexFilterHook miniMatchString
          [{ Pattern := some dotStar, Exclude := false }, { Pattern := some hiddenName, Exclude := true }]
          { Name := ".hidden", Size := 0, IsDir := false } "x/.hidden" = .returns (some .ErrSkip) ∧
      MultiRegexFilterHook miniMatchString
          [{ Pattern := some dotStar, Exclude := false }, { Pattern := some hiddenName, Exclude := true }]
          { Name := "visible.go", Size := 0, IsDir := false } "x/visible.go" = .returns none :=
  have h := setDefaults_files_filter miniCompile miniMatchString dotStar hiddenName rfl rfl
    dotStar_matches_all hiddenName_matches_iff
  ⟨h.1 true, h.2.2 0 false "x/.hidden" |>.1, h.2.2 0 false "x/visible.go" |>.2⟩

/-- Witness of C1 (amended): the two default patterns and the file `visible.go`. -/
theorem MultiRegexFilterHook_last_match_wins_witness :
    (∀ fp ∈ [({ Pattern := some dotStar, Exclude := false } : FilePattern MiniRegexp),
        { Pattern := some hiddenName, Exclude := true }], fp.Pattern.isSome = true) ∧
      MultiRegexFilterHook miniMatchString
          [{ Pattern := some dotStar, Exclude := false }, { Pattern := some hiddenName, Exclude := true }]
          { Name := "visible.go", Size := 0, IsDir := false } "x/visible.go" = .returns none :=
  ⟨by decide,
   (MultiRegexFilterHook_last_match_wins miniMatchString
      [{ Pattern := some dotStar, Exclude := false }, { Pattern := some hiddenName, Exclude := true }]
      { Name := "visible.go", Size := 0, IsDir := false } "x/visible.go" (by decide)).1.mpr
     ⟨[], { Pattern := some dotStar, Exclude := false },
       [{ Pattern := some hiddenName, Exclude := true }], rfl, by decide, by decide, rfl⟩⟩

/-- C1 as stated fails: the files list `[".*", 5]` is parsed without error into
`[(.*, include), (nil, include)]`; the pattern `.*` matches the name `a`, no later
pattern matches it and its `Exclude` is false, yet the hook does not return nil: it
panics on the nil `Pattern` of the last entry. -/
theorem MultiRegexFilterHook_panics_on_nil_pattern :
    parseFiles miniCompile (.slice [.str ".*", .int 5]) =
        .returns ([{ Pattern := some dotStar, Exclude := false },
          { Pattern := none, Exclude := false }], true) ∧
      FilePattern.matchesName miniMatchString { Pattern := some dotStar, Exclude := false } "a" = true ∧
      FilePattern.matchesName miniMatchString { Pattern := none, Exclude := false } "a" = false ∧
      MultiRegexFilterHook miniMatchString
          [{ Pattern := some dotStar, Exclude := false }, { Pattern := none, Exclude := false }]
          { Name := "a", Size := 0, IsDir := false } "a" = .panics := by
  decide

/-! ## The environment of a child -/

theorem splitEntry_key (k v : List Char) (hk : '=' ∉ k) :
    splitEntry (k ++ '=' :: v) = some (k, v) := by
  induction k with
  | nil => simp [splitEntry]
  | cons c k ih =>
    have hc : c ≠ '=' := fun h => hk (by simp [h])
    have hk' : '=' ∉ k := fun h => hk (List.mem_cons_of_mem _ h)
    simp [splitEntry, hc, ih hk']

theorem entryValue_assign (key other value : String) (hk : '=' ∉ other.data) :
    entryValue key (other ++ "=" ++ value) = if other = key then some value else none := by
  have hd : (other ++ "=" ++ value).data = other.data ++ '=' :: value.data := by
    simp [String.data_append]
  unfold entryValue
  rw [hd, splitEntry_key _ _ hk]
  by_cases h : other = key
  · subst h
    simp
  · have h' : ¬ other.data = key.data := fun hdata => h (String.ext hdata)
    simp [h, h']

theorem lookupEnv_initCommand (environ : List String) (e : env) :
    childVariables
        (environ ++ ["MW_TRIGGER=" ++ e.trigger, "MW_FILE=" ++ e.file, "MW_STAGE=" ++ e.stage]) =
      (some e.trigger, some e.file, some e.stage) := by
  have ht : ∀ key, entryValue key ("MW_TRIGGER=" ++ e.trigger) =
      if "MW_TRIGGER" = key then some e.trigger else none :=
    fun key => entryValue_assign key "MW_TRIGGER" e.trigger (by decide)
  have hf : ∀ key, entryValue key ("MW_FILE=" ++ e.file) =
      if "MW_FILE" = key then some e.file else none :=
    fun key => entryValue_assign key "MW_FILE" e.file (by decide)
  have hs : ∀ key, entryValue key ("MW_STAGE=" ++ e.stage) =
      if "MW_STAGE" = key then some e.stage else none :=
    fun key => entryValue_assign key "MW_STAGE" e.stage (by decide)
  simp [childVariables, lookupEnv, List.filterMap_cons, ht, hf, hs]

/-! ## The spawn path -/

theorem reapPrior_of_reachesStart {R Ch : Type} (stage : Stage R) (st : Runner Ch)
    (hs : reachesStart stage st = true) :
    ∃ st1 prior, reapPrior stage st = .returns st1 ∧ st1.cmd = none ∧
      st1.allocated = st.allocated ∧ st1.supervisors = st.supervisors ∧
      st1.returned = st.returned ∧ st1.trace = st.trace ++ prior ∧
      (∀ a ∈ prior, a.isProcessCall = true) ∧ (∀ c ∈ st1.alive, c ∈ st.alive) := by
  unfold reachesStart at hs
  cases hslot : st.cmd with
  | none =>
    refine ⟨st, [], ?_, hslot, rfl, rfl, rfl, by simp, by simp, fun c hc => hc⟩
    simp [reapPrior, hslot]
  | some h =>
    rw [hslot] at hs
    have hk : (stage.EarlyTerminate && !h.started) = false := by
      cases hET : stage.EarlyTerminate <;> cases hst : h.started <;> simp [hET, hst] at hs ⊢
    refine ⟨{ st with
        cmd := none
        alive := st.alive.filter (fun c => c != h.id)
        finished := if h.started then h.id :: st.finished else st.finished
        trace := st.trace ++ (if stage.EarlyTerminate then [.kill h.id] else []) ++ [.wait h.id] },
      (if stage.EarlyTerminate then [.kill h.id] else []) ++ [.wait h.id], ?_, rfl, rfl,
      rfl, rfl, by simp [List.append_assoc], ?_, ?_⟩
    · simp [reapPrior, hslot, hk]
    · intro a ha
      simp at ha
      rcases ha with ⟨_, rfl⟩ | rfl <;> rfl
    · intro c hc
      exact (List.mem_filter.mp hc).1

theorem initCommand_of_reachesStart {R Ch : Type} (environ : List String) (stage : Stage R)
    (e : env) (st : Runner Ch) (hs : reachesStart stage st = true) :
    ∃ c, initCommand environ stage e = .returns c ∧
      c.Env = environ ++ ["MW_TRIGGER=" ++ e.trigger, "MW_FILE=" ++ e.file, "MW_STAGE=" ++ e.stage] := by
  unfold reachesStart at hs
  cases hcmd : stage.Cmd with
  | nil => simp [hcmd] at hs
  | cons nm args =>
    refine ⟨?_, ?_, ?_⟩
    · exact
        { Args := nm :: args
          Env := environ ++ ["MW_TRIGGER=" ++ e.trigger, "MW_FILE=" ++ e.file, "MW_STAGE=" ++ e.stage] }
    · simp [initCommand, hcmd]
    · rfl

theorem spawnProcess_of_reachesStart {R Ch : Type} (environ : List String) (startOk : Bool)
    (stage : Stage R) (wd : watchData Ch) (e : env) (st : Runner Ch)
    (hs : reachesStart stage st = true) :
    ∃ st' prior h, spawnProcess environ startOk stage wd e st = .returns st' ∧
      (∀ a ∈ prior, a.isProcessCall = true) ∧
      st'.cmd = some h ∧ h.id = st.allocated ∧ h.started = startOk ∧
      childVariables h.command.Env = (some e.trigger, some e.file, some e.stage) ∧
      st'.returned = st.returned ∧
      st'.trace = st.trace ++ prior ++ [.start st.allocated startOk] ++
        (if startOk then wd.asyncParentChans.map (fun c => Action.send c e) ++
          [.goSupervisor st.allocated] else []) ∧
      st'.supervisors = st.supervisors ++
        (if startOk then [{ child := st.allocated, e := e, waitingOn := none }] else []) ∧
      st'.allocated = st.allocated + 1 := by
  obtain ⟨st1, prior, hreap, _, halloc, hsup, hret, htrace, hprior, _⟩ :=
    reapPrior_of_reachesStart stage st hs
  obtain ⟨c, hinit, henv⟩ := initCommand_of_reachesStart environ stage e st hs
  have hvars : childVariables c.Env = (some e.trigger, some e.file, some e.stage) := by
    rw [henv]
    exact lookupEnv_initCommand environ e
  cases startOk with
  | false =>
    refine ⟨{ st1 with
        cmd := some { id := st1.allocated, command := c, started := false }
        allocated := st1.allocated + 1
        trace := st1.trace ++ [.start st1.allocated false] },
      prior, { id := st1.allocated, command := c, started := false }, ?_, hprior, rfl, halloc, rfl,
      hvars, hret, ?_, ?_, ?_⟩
    · simp [spawnProcess, hreap, hinit]
    · simp [htrace, halloc]
    · simp [hsup]
    · simp [halloc]
  | true =>
    refine ⟨{ st1 with
        cmd := some { id := st1.allocated, command := c, started := true }
        allocated := st1.allocated + 1
        alive := st1.alive ++ [st1.allocated]
        supervisors := st1.supervisors ++ [{ child := st1.allocated, e := e, waitingOn := none }]
        trace := st1.trace ++ [.start st1.allocated true] ++
          wd.asyncParentChans.map (fun c => Action.send c e) ++ [.goSupervisor st1.allocated] },
      prior, { id := st1.allocated, command := c, started := true }, ?_, hprior, rfl, halloc, rfl,
      hvars, hret, ?_, ?_, ?_⟩
    · simp [spawnProcess, hreap, hinit]
    · simp [htrace, halloc]
    · simp [hsup, halloc]
    · simp [halloc]

theorem spawnProcess_panics_of_not_reachesStart {R Ch : Type} (environ : List String)
    (startOk : Bool) (stage : Stage R) (wd : watchData Ch) (e : env) (st : Runner Ch)
    (hs : reachesStart stage st = false) :
    spawnProcess environ startOk stage wd e st = .panics := by
  unfold reachesStart at hs
  cases hcmd : stage.Cmd with
  | nil =>
    cases hreap : reapPrior stage st <;> simp [spawnProcess, hreap, initCommand, hcmd]
  | cons nm args =>
    cases hslot : st.cmd with
    | none => simp [hcmd, hslot] at hs
    | some h =>
      have hk : (stage.EarlyTerminate && !h.started) = true := by
        cases hET : stage.EarlyTerminate <;> cases hst : h.started <;>
          simp [hcmd, hslot, hET, hst] at hs ⊢
      simp [spawnProcess, reapPrior, hslot, hk]

theorem reachesStart_init {R Ch : Type} (stage : Stage R) (st : Runner Ch)
    (hs : reachesStart stage st = true) : reachesStart stage (Runner.init Ch) = true := by
  unfold reachesStart at hs ⊢
  simp only [Bool.and_eq_true] at hs
  simp [Runner.init, hs.1]

/-- C6: for every spawn on a stage named `name`, whatever the parent environment, the
command left in the slot carries an environment in which `MW_TRIGGER`, `MW_FILE` and
`MW_STAGE` (last entry winning) read `("", path, name)` for a watch event on `path`,
`(t.stage, t.file, name)` for an upstream signal `t`, and `("", "", name)` for the boot
spawn. -/
theorem child_environment {R Ch : Type} (name : String) (environ : List String) (startOk : Bool)
    (stage : Stage R) (wd : watchData Ch) (st : Runner Ch) (hs : reachesStart stage st = true) :
    (∀ path, ∃ st' h,
      serve name environ startOk stage wd (.watchEvent path) st = .returns st' ∧
        st'.cmd = some h ∧ h.started = startOk ∧
        childVariables h.command.Env = (some "", some path, some name)) ∧
    (∀ t : env, ∃ st' h,
      serve name environ startOk stage wd (.upstream t) st = .returns st' ∧
        st'.cmd = some h ∧ h.started = startOk ∧
        childVariables h.command.Env = (some t.stage, some t.file, some name)) ∧
    (stage.Start = true → ∃ st' h,
      boot name environ startOk stage wd = .returns st' ∧
        st'.cmd = some h ∧ h.started = startOk ∧
        childVariables h.command.Env = (some "", some "", some name)) := by
  refine ⟨?_, ?_, ?_⟩
  · intro path
    obtain ⟨st', _, h, hspawn, _, hslot, _, hstarted, hvars, _⟩ :=
      spawnProcess_of_reachesStart environ startOk stage wd
        { trigger := "", file := path, stage := name } st hs
    exact ⟨st', h, hspawn, hslot, hstarted, hvars⟩
  · intro t
    obtain ⟨st', _, h, hspawn, _, hslot, _, hstarted, hvars, _⟩ :=
      spawnProcess_of_reachesStart environ startOk stage wd
        { trigger := t.stage, file := t.file, stage := name } st hs
    exact ⟨st', h, hspawn, hslot, hstarted, hvars⟩
  · intro hstart
    obtain ⟨st', _, h, hspawn, _, hslot, _, hstarted, hvars, _⟩ :=
      spawnProcess_of_reachesStart environ startOk stage wd
        { trigger := "", file := "", stage := name } (Runner.init Ch) (reachesStart_init stage st hs)
    refine ⟨st', h, ?_, hslot, hstarted, hvars⟩
    simp only [boot, hstart, if_true]
    exact hspawn

/-- Witness of C6: a parent environment that already defines `MW_STAGE` and
`MW_FILE`; the stage `build` is signalled by its upstream `gen` for the file `x/a.go`. -/
theorem child_environment_witness :
    reachesStart (exampleStage ["/bin/true"] true) (Runner.init Nat) = true ∧
      ∃ st' h,
        serve "build" ["MW_STAGE=old", "PATH=/bin", "MW_FILE=stale"] true
            (exampleStage ["/bin/true"] true) exampleWatchData
            (.upstream { trigger := "", file := "x/a.go", stage := "gen" }) (Runner.init Nat) =
          .returns st' ∧
        st'.cmd = some h ∧ h.started = true ∧
        childVariables h.command.Env = (some "gen", some "x/a.go", some "build") :=
  ⟨by decide,
   (child_environment "build" ["MW_STAGE=old", "PATH=/bin", "MW_FILE=stale"] true
      (exampleStage ["/bin/true"] true) exampleWatchData (Runner.init Nat) (by decide)).2.1
     { trigger := "", file := "x/a.go", stage := "gen" }⟩

/-! ## The child slot -/

/-- C4 fails on the code: a stage whose command cannot be started is booted; the
spawn path returns with the command that failed to start still in the slot and no
child alive. The next trigger therefore takes the prior-child path: with
`early-terminate` it calls `Kill` on the nil `Process` and panics; without it, it calls
`Wait` on the stale command before starting the next one. -/
theorem failed_start_leaves_command_in_slot :
    (boot "s" [] false (exampleStage ["/no/such/binary"] true) exampleWatchData).andThen
        (fun st => .returns (st.cmd.map (fun h => (h.id, h.started)), st.alive)) =
      .returns (some (0, false), []) ∧
    (boot "s" [] false (exampleStage ["/no/such/binary"] true) exampleWatchData).andThen
        (serve "s" [] true (exampleStage ["/no/such/binary"] true) exampleWatchData
          (.watchEvent "a")) = .panics ∧
    ((boot "s" [] false (exampleStage ["/no/such/binary"] false) exampleWatchData).andThen
        (serve "s" [] false (exampleStage ["/no/such/binary"] false) exampleWatchData
          (.watchEvent "a"))).andThen (fun st => .returns st.trace) =
      .returns [.start 0 false, .wait 0, .start 1 false] := by
  decide

/-- C2 fails on the code: with either setting of `early-terminate`, a stage running
`/bin/sleep 10` reaches a state with two live children. The boot spawn starts child 0
and its supervisor blocks in `Wait` on it; a watch event reaps child 0 and starts
child 1; the supervisor started for child 0 returns from `Wait` with an error and
clears the slot, which holds child 1; the next watch event finds the slot empty and
starts child 2 beside child 1. -/
theorem two_children_alive_reachable (earlyTerminate : Bool) :
    ∃ st, Reachable "s" [] (exampleStage ["/bin/sleep", "10"] earlyTerminate) exampleWatchData st ∧
      st.alive = [1, 2] := by
  cases earlyTerminate
  all_goals
    refine ⟨_, Reachable.step _ _ (Reachable.step _ _ (Reachable.step _ _ (Reachable.step _ _
      (Reachable.booted true _ rfl)
      (Step.supervisorStarted { child := 0, e := bootEnv, waitingOn := none } _ _
        (by decide) rfl rfl))
      (Step.served true (.watchEvent "a") _ _ rfl rfl))
      (Step.supervisorExited (bootSupervisor ["/bin/sleep", "10"])
        (bootHandle ["/bin/sleep", "10"]) false _ _ (by decide) rfl rfl))
      (Step.served true (.watchEvent "b") _ _ rfl rfl), ?_⟩
    rfl

/-! ## Signals to sync downstream stages -/

/-- C3 fails on the code: a stage running `/bin/true` without `early-terminate`, with
one async downstream channel `1` and one sync downstream channel `2`. The boot spawn
starts child 0 and its supervisor blocks in `Wait` on it; a watch event reaps child 0
and starts child 1, which the slot now holds. In the state reached nothing has been
sent on channel `2`, the supervisor of child 0 is still blocked in `Wait`, and when
that `Wait` returns a nil error (exit status zero) the goroutine reads the
`ProcessState` of the command in the slot, which is child 1 and has none, and panics:
the program ends without the sync send for the spawn of child 0. -/
theorem supervisor_panics_before_sync_send :
    ∃ st : Runner Nat,
      Reachable "s" [] (exampleStage ["/bin/true"] false) exampleWatchData st ∧
      st.trace =
        [.start 0 true, .send 1 bootEnv, .goSupervisor 0, .wait 0, .start 1 true,
          .send 1 { trigger := "", file := "a", stage := "s" }, .goSupervisor 1] ∧
      bootSupervisor ["/bin/true"] ∈ st.supervisors ∧
      supervisorExit exampleWatchData (bootSupervisor ["/bin/true"]) (bootHandle ["/bin/true"])
        true st = .panics := by
  refine ⟨_, Reachable.step _ _ (Reachable.step _ _
    (Reachable.booted true _ rfl)
    (Step.supervisorStarted { child := 0, e := bootEnv, waitingOn := none } _ _
      (by decide) rfl rfl))
    (Step.served true (.watchEvent "a") _ _ rfl rfl), ?_, ?_, ?_⟩
  · rfl
  · decide
  · rfl

/-! ## Watch closed -/

theorem step_after_return {R Ch : Type} (name : String) (environ : List String)
    (stage : Stage R) (wd : watchData Ch) (s s' : Runner Ch)
    (hstep : Step name environ stage wd s s') (hret : s.returned = true) :
    s'.returned = true ∧ ∃ added, s'.trace = s.trace ++ added ∧
      ∀ a ∈ added, a.isProcessCall = false := by
  cases hstep with
  | served startOk src _ _ hnot _ => rw [hret] at hnot; cases hnot
  | supervisorStarted sup _ _ _ _ hstart =>
    unfold supervisorStart at hstart
    split at hstart
    · cases hstart
    · cases hstart
      exact ⟨hret, [], by simp, by simp⟩
  | supervisorExited sup h waitOk _ _ _ _ hexit =>
    unfold supervisorExit at hexit
    simp only at hexit
    split at hexit
    · cases hexit
    · cases hexit
      refine ⟨hret, [.exitObserved h.id (waitOk && h.started), .clearSlot] ++
        wd.syncParentChans.map (fun c => Action.send c sup.e), ?_, ?_⟩
      · simp [List.append_assoc]
      · intro a ha
        simp at ha
        rcases ha with rfl | rfl | ⟨c, _, rfl⟩ <;> rfl

/-- C5 (amended): serving the watch-closed signal in any state makes the runner
return without any call on a process: the live children and the trace are unchanged,
so a child alive at that moment is neither killed nor awaited. From then on the
runner stays returned and no further `Kill`, `Wait` or `Start` is performed for the
stage; only supervisor goroutines still run. -/
theorem watchClosed_returns_without_kill {R Ch : Type} (name : String) (environ : List String)
    (startOk : Bool) (stage : Stage R) (wd : watchData Ch) (st : Runner Ch) :
    ∃ st', serve name environ startOk stage wd .watchClosed st = .returns st' ∧
      st'.returned = true ∧ st'.alive = st.alive ∧ st'.trace = st.trace ∧
      ∀ st'', Relation.ReflTransGen (Step name environ stage wd) st' st'' →
        st''.returned = true ∧ ∃ later, st''.trace = st.trace ++ later ∧
          ∀ a ∈ later, a.isProcessCall = false := by
  refine ⟨{ st with returned := true }, rfl, rfl, rfl, rfl, ?_⟩
  intro st'' hsteps
  induction hsteps with
  | refl => exact ⟨rfl, [], by simp, by simp⟩
  | tail _ hstep ih =>
    obtain ⟨hret, later, htrace, hlater⟩ := ih
    obtain ⟨hret', added, htrace', hadded⟩ := step_after_return name environ stage wd _ _ hstep hret
    refine ⟨hret', later ++ added, ?_, ?_⟩
    · rw [htrace', htrace, List.append_assoc]
    · intro a ha
      rcases List.mem_append.mp ha with h | h
      · exact hlater a h
      · exact hadded a h

/-- Witness of C5 (amended): watch-closed served right after the boot spawn. -/
theorem watchClosed_returns_without_kill_witness :
    ∃ st' : Runner Nat,
      serve "s" [] true (exampleStage ["/bin/sleep", "10"] true) exampleWatchData .watchClosed
          { cmd := none, alive := [0], finished := [], supervisors := [], allocated := 1, returned := false,
            trace := [.start 0 true] } = .returns st' ∧
        st'.returned = true ∧ st'.alive = [0] :=
  let ⟨st', h1, h2, h3, _⟩ :=
    watchClosed_returns_without_kill "s" [] true (exampleStage ["/bin/sleep", "10"] true)
      exampleWatchData
      { cmd := none, alive := [0], finished := [], supervisors := [], allocated := 1, returned := false,
        trace := [.start 0 true] }
  ⟨st', h1, h2, h3⟩

/-- C5 as stated fails: after the boot spawn of `/bin/sleep 10` child 0 is alive;
serving watch-closed makes the runner return with child 0 still alive and no `Kill`
in the trace. -/
theorem watchClosed_does_not_kill :
    (boot "s" [] true (exampleStage ["/bin/sleep", "10"] true) exampleWatchData).andThen
        (fun st => .returns (st.returned, st.alive, st.trace)) =
      .returns (false, [0],
        [.start 0 true, .send 1 { trigger := "", file := "", stage := "s" }, .goSupervisor 0]) ∧
    ((boot "s" [] true (exampleStage ["/bin/sleep", "10"] true) exampleWatchData).andThen
        (serve "s" [] true (exampleStage ["/bin/sleep", "10"] true) exampleWatchData
          .watchClosed)).andThen (fun st => .returns (st.returned, st.alive, st.trace)) =
      .returns (true, [0],
        [.start 0 true, .send 1 { trigger := "", file := "", stage := "s" }, .goSupervisor 0]) := by
  decide

end Multiwatcher
